import Mathlib

/-!
# Room Synchronizer — shallow embedding

A shallow embedding of the multiplayer room-synchronization layer
(`MultiplayerManager` in `multiplayer.ts`): the peer registry, the
tagged-union protocol messages, the inbound message pipeline of both
transports (deduplication followed by `handleIncomingMessage`), the
periodic stale-peer cleanup, and `destroy`.

Modelling conventions:

* Timestamps (`Date.now()`) are `Nat` milliseconds, passed explicitly as
  `now` to each handler. Nat subtraction agrees with JS subtraction on
  the only test performed (`now - lastSeen > 3000`): when
  `lastSeen > now` JS yields a negative number and Nat yields `0`, and
  both fail the `> 3000` test.
* The JS `Map<string, RemotePlayerInfo>` (insertion-ordered, unique
  keys) is an association list `List RemotePlayerInfo` whose key is the
  `id` field (the code always stores the entry under `info.id`).
  `Map.set` on an existing key overwrites in place (position kept);
  on a fresh key it appends. `Map.delete` removes the keyed entry.
* The `Set<string>` of seen message ids is an insertion-ordered
  duplicate-free `List String`; `Array.from` enumerates it in insertion
  order and `.slice(-100)` keeps the last 100 elements.
* Callback invocations (`onStatusChange`, `onMessage`,
  `onConnectionChange`, `onPlayerListChange`, `onGameStart`) and the
  scheduled `announceJoin` reply are recorded as an emitted `Event`
  list, in the order the code fires them.
* The kinematic fields of `PlayerState` are JS numbers; this layer never
  computes with them (it only copies them and reads `name`/`color`), so
  they are modelled as `Int` placeholders.
-/

/-- Model of `PlayerState` from `engine.ts`; the synchronizer only reads
`name`/`color` and forwards the rest opaquely. -/
structure PlayerState where
  x : Int
  y : Int
  vx : Int
  vy : Int
  width : Int
  height : Int
  onGround : Bool
  color : String
  name : String
  isDead : Bool
  hasWon : Bool
  deaths : Nat
deriving Repr, DecidableEq

/-- Model of `RemotePlayerInfo`: one registry entry per peer believed connected. -/
structure RemotePlayerInfo where
  id : String
  name : String
  color : String
  lastSeen : Nat
deriving Repr, DecidableEq

/-- The tagged union `MultiplayerMessage` of `multiplayer.ts`. -/
inductive MultiplayerMessage where
  | playerUpdate (player : PlayerState) (peerId : String)
  | levelChange (level : Int) (peerId : String)
  | playerJoin (peerId : String) (name : String) (color : String)
  | playerLeft (peerId : String)
  | startGame (level : Int) (peerId : String)
  | heartbeat (peerId : String) (name : String) (color : String)
deriving Repr, DecidableEq

/-- Every message variant carries the sender's `peerId`; this is the
value the check `'peerId' in msg && msg.peerId === this.peerId` reads. -/
def MultiplayerMessage.peerIdOf : MultiplayerMessage → String
  | .playerUpdate _ pid => pid
  | .levelChange _ pid => pid
  | .playerJoin pid _ _ => pid
  | .playerLeft pid => pid
  | .startGame _ pid => pid
  | .heartbeat pid _ _ => pid

/-- One observable side effect of the synchronizer: a callback firing,
or the `setTimeout(() => this.announceJoin(), 50)` reply scheduled on
discovering a new peer via `playerJoin`. -/
inductive Event where
  | statusChange (text : String)
  | message (msg : MultiplayerMessage)
  | connectionChange (count : Nat)
  | playerListChange (players : List RemotePlayerInfo)
  | gameStart (level : Int)
  | scheduleAnnounceJoin (delayMs : Nat)
deriving Repr, DecidableEq

/-- Lookup `this.remotePlayers.get(id)`: first (unique) entry keyed `id`. -/
def mapGet (reg : List RemotePlayerInfo) (id : String) :
    Option RemotePlayerInfo :=
  reg.find? (fun p => p.id == id)

/-- Update `this.remotePlayers.set(info.id, info)`: overwrite in place when the
key is present, append otherwise. -/
def mapSet (reg : List RemotePlayerInfo) (info : RemotePlayerInfo) :
    List RemotePlayerInfo :=
  if reg.any (fun p => p.id == info.id) then
    reg.map (fun p => if p.id == info.id then info else p)
  else
    reg ++ [info]

/-- Removal `this.remotePlayers.delete(id)`. -/
def mapDelete (reg : List RemotePlayerInfo) (id : String) :
    List RemotePlayerInfo :=
  reg.filter (fun p => p.id != id)

/-- Model of `notifyConnectionChange`: reads `remotePlayers.size` and
`Array.from(remotePlayers.values())` at the same moment and fires
`onConnectionChange` then `onPlayerListChange`. -/
def notifyConnectionChange (reg : List RemotePlayerInfo) : List Event :=
  [Event.connectionChange reg.length, Event.playerListChange reg]

/-- Status text `🟢 ${name} a rejoint la salle !`. -/
def joinedStatus (name : String) : String :=
  "🟢 " ++ name ++ " a rejoint la salle !"

/-- Status text `🔴 ${name} a quitté`. -/
def leftStatus (name : String) : String :=
  "🔴 " ++ name ++ " a quitt\xe9"

/-- Status text `🔴 ${name} s'est déconnecté`. -/
def disconnectedStatus (name : String) : String :=
  "🔴 " ++ name ++ " s\x27est d\xe9connect\xe9"

/-- Shared body of the `heartbeat` and `playerJoin` cases of
`handleIncomingMessage` (`isJoin` tells the two apart for the
delayed `announceJoin` reply). -/
def handleJoinLike (now : Nat) (reg : List RemotePlayerInfo)
    (pid name color : String) (isJoin : Bool) :
    List RemotePlayerInfo × List Event :=
  let wasKnown := reg.any (fun p => p.id == pid)
  let reg' := mapSet reg ⟨pid, name, color, now⟩
  if !wasKnown then
    (reg',
      [Event.statusChange (joinedStatus name)]
        ++ notifyConnectionChange reg'
        ++ if isJoin then [Event.scheduleAnnounceJoin 50] else [])
  else
    (reg', [])

/-- Model of `handleIncomingMessage`: self-filter, then dispatch on the message
kind; returns the updated registry and the emitted events in firing
order. -/
def handleIncomingMessage (selfId : String) (now : Nat)
    (reg : List RemotePlayerInfo) (msg : MultiplayerMessage) :
    List RemotePlayerInfo × List Event :=
  if msg.peerIdOf == selfId then (reg, [])
  else
    match msg with
    | .heartbeat pid name color => handleJoinLike now reg pid name color false
    | .playerJoin pid name color => handleJoinLike now reg pid name color true
    | .playerUpdate player pid =>
      match mapGet reg pid with
      | some existing =>
        (mapSet reg { existing with lastSeen := now }, [Event.message msg])
      | none =>
        let reg' := mapSet reg ⟨pid, player.name, player.color, now⟩
        (reg', notifyConnectionChange reg' ++ [Event.message msg])
    | .startGame level _ => (reg, [Event.gameStart level])
    | .playerLeft pid =>
      let leaving := mapGet reg pid
      let headEvents :=
        match leaving with
        | some l => [Event.statusChange (leftStatus l.name)]
        | none => []
      let reg' := mapDelete reg pid
      (reg', headEvents ++ notifyConnectionChange reg' ++ [Event.message msg])
    | .levelChange _ _ => (reg, [Event.message msg])

example :
    handleIncomingMessage "me" 7 [] (.heartbeat "A" "Alice" "red")
      = ([⟨"A", "Alice", "red", 7⟩],
         [Event.statusChange (joinedStatus "Alice"),
          Event.connectionChange 1,
          Event.playerListChange [⟨"A", "Alice", "red", 7⟩]]) := by decide

example :
    (handleIncomingMessage "me" 9 [⟨"A", "Alice", "red", 7⟩]
        (.heartbeat "A" "Al" "blue"))
      = ([⟨"A", "Al", "blue", 9⟩], []) := by decide

/-- A message as it travels on either transport: the logical message
plus the optional `_msgId` deduplication tag `broadcast` attaches. -/
structure WireMessage where
  msg : MultiplayerMessage
  msgId : Option String
deriving Repr, DecidableEq

/-- The mutable fields of `MultiplayerManager` the claims concern. -/
structure ManagerState where
  peerId : String
  destroyed : Bool
  seenMessageIds : List String
  remotePlayers : List RemotePlayerInfo
deriving Repr, DecidableEq

/-- Manager state right after construction: live, nothing seen,
registry empty. -/
def initManager (pid : String) : ManagerState :=
  { peerId := pid, destroyed := false, seenMessageIds := [],
    remotePlayers := [] }

/-- The `if (this.seenMessageIds.size > 200) … slice(-100)` trim: keep
the 100 most recently inserted ids once the set tops 200. -/
def trimSeen (seen : List String) : List String :=
  if seen.length > 200 then seen.drop (seen.length - 100) else seen

/-- The deduplicate-then-dispatch block that both transport handlers
contain verbatim: a message with an already-seen `_msgId` is dropped;
otherwise its id (when present) is recorded, the set trimmed, and the
message handed to `handleIncomingMessage`. -/
def dedupAndHandle (st : ManagerState) (now : Nat) (wire : WireMessage) :
    ManagerState × List Event :=
  match wire.msgId with
  | some mid =>
    if st.seenMessageIds.contains mid then (st, [])
    else
      let r := handleIncomingMessage st.peerId now st.remotePlayers wire.msg
      ({ st with
          seenMessageIds := trimSeen (st.seenMessageIds ++ [mid]),
          remotePlayers := r.1 }, r.2)
  | none =>
    let r := handleIncomingMessage st.peerId now st.remotePlayers wire.msg
    ({ st with remotePlayers := r.1 }, r.2)

/-- The `BroadcastChannel` `onmessage` handler set up in
`setupBroadcastChannel`. -/
def bcOnMessage (st : ManagerState) (now : Nat) (wire : WireMessage) :
    ManagerState × List Event :=
  if st.destroyed then (st, [])
  else dedupAndHandle st now wire

/-- JS `String.prototype.startsWith`, modelled over the character list
(Lean's own `String.startsWith` is defined by iterator recursion the
kernel cannot evaluate). -/
def strStartsWith (s pre : String) : Bool :=
  pre.toList.isPrefixOf s.toList

/-- The store-relay record `{ from, data }` written by `broadcast` into
`localStorage`, already decoded from JSON (`fromId` models the `from`
field; `from` is a Lean keyword). A storage event whose value fails
`JSON.parse` is modelled as `none` at the call site. -/
structure StorageWrapper where
  fromId : String
  data : WireMessage
deriving Repr, DecidableEq

/-- The `storage` event handler set up in `setupStorageTransport`: key
must carry the room prefix, the value must parse, self-written records
(`wrapper.from === this.peerId`) are discarded before their payload is
looked at, then the shared dedup-and-dispatch block runs. -/
def storageOnMessage (st : ManagerState) (now : Nat) (roomId : String)
    (key : Option String) (value : Option StorageWrapper) :
    ManagerState × List Event :=
  if st.destroyed then (st, [])
  else
    match key with
    | none => (st, [])
    | some k =>
      if !(strStartsWith k ("cr-" ++ roomId ++ "-")) then (st, [])
      else
        match value with
        | none => (st, [])
        | some wrapper =>
          if wrapper.fromId == st.peerId then (st, [])
          else dedupAndHandle st now wrapper.data

/-- Model of `broadcast`: early-returns when `destroyed`; otherwise tags the
message with a fresh `_msgId` and pushes the same wire message through
both transports. The result is the logical wire message put on the
wire (`none` when nothing was sent). -/
def broadcastSends (destroyed : Bool) (msg : MultiplayerMessage)
    (msgId : String) : Option WireMessage :=
  if destroyed then none else some { msg := msg, msgId := some msgId }

/-- Model of `destroy()`: sets `destroyed := true`, then calls
`broadcast({ type: 'playerLeft', peerId: this.peerId })`, cancels the
timers, closes the transports, and clears the registry. Returns the
final state and what the departure broadcast put on the wire. -/
def destroy (st : ManagerState) (msgId : String) :
    ManagerState × Option WireMessage :=
  let st1 := { st with destroyed := true }
  let sent :=
    broadcastSends st1.destroyed (.playerLeft st1.peerId) msgId
  ({ st1 with remotePlayers := [] }, sent)

/-- Model of `getConnectedCount()`: `this.remotePlayers.size`. -/
def getConnectedCount (st : ManagerState) : Nat :=
  st.remotePlayers.length

/-- Model of `getPlayerList()`: `Array.from(this.remotePlayers.values())`. -/
def getPlayerList (st : ManagerState) : List RemotePlayerInfo :=
  st.remotePlayers

/-- The body of the cleanup interval's `forEach`: walk the entries in
insertion order; a stale entry (`now - lastSeen > 3000`) is deleted
from the registry and a disconnect status plus a synthetic `playerLeft`
message fire, and the `changed` flag is set. Deleting the entry under
iteration is safe for a JS `Map`, so iterating the original entry list
while deleting from the accumulated registry is faithful. -/
def cleanupPass (now : Nat) (pending reg : List RemotePlayerInfo)
    (events : List Event) (changed : Bool) :
    List RemotePlayerInfo × List Event × Bool :=
  match pending with
  | [] => (reg, events, changed)
  | p :: rest =>
    if now - p.lastSeen > 3000 then
      cleanupPass now rest (mapDelete reg p.id)
        (events ++ [Event.statusChange (disconnectedStatus p.name),
                    Event.message (.playerLeft p.id)])
        true
    else
      cleanupPass now rest reg events changed

/-- One firing of the 2000 ms cleanup interval: evict stale peers, and
fire `notifyConnectionChange` once at the end iff anything changed. -/
def cleanupTick (now : Nat) (reg : List RemotePlayerInfo) :
    List RemotePlayerInfo × List Event :=
  let r := cleanupPass now reg reg [] false
  (r.1, r.2.1 ++ if r.2.2 then notifyConnectionChange r.1 else [])

/-- One step of an instance's timeline: an inbound delivery (via the
broadcast-channel transport) or a firing of the cleanup interval (whose
callback body starts with the `destroyed` check). -/
inductive TraceStep where
  | deliver (now : Nat) (wire : WireMessage)
  | tick (now : Nat)
deriving Repr, DecidableEq

/-- Run one trace step against the manager state. -/
def traceStep (st : ManagerState) : TraceStep → ManagerState
  | .deliver now wire => (bcOnMessage st now wire).1
  | .tick now =>
    if st.destroyed then st
    else { st with remotePlayers := (cleanupTick now st.remotePlayers).1 }

/-- Run a timeline of steps. -/
def runTrace (st : ManagerState) (steps : List TraceStep) : ManagerState :=
  steps.foldl traceStep st

/-- Feed a list of timed wire messages through the broadcast-channel
handler. -/
def runDeliveries (st : ManagerState) (msgs : List (Nat × WireMessage)) :
    ManagerState :=
  msgs.foldl (fun s nm => (bcOnMessage s nm.1 nm.2).1) st

/-- Discriminator: is this event an `onStatusChange` firing? -/
def Event.isStatusChange : Event → Bool
  | .statusChange _ => true
  | _ => false

/-- Discriminator: is this event an `onConnectionChange` firing? -/
def Event.isConnectionChange : Event → Bool
  | .connectionChange _ => true
  | _ => false

/-- Discriminator: is this event an `onPlayerListChange` firing? -/
def Event.isPlayerListChange : Event → Bool
  | .playerListChange _ => true
  | _ => false

/-- Membership notifications are well-paired: every
`onConnectionChange(count)` is immediately followed by
`onPlayerListChange(list)` with `count = list.length`, and no
`onPlayerListChange` fires on its own. -/
def consistentEvents : List Event → Bool
  | [] => true
  | Event.connectionChange c :: Event.playerListChange l :: rest =>
    c == l.length && consistentEvents rest
  | Event.connectionChange _ :: _ => false
  | Event.playerListChange _ :: _ => false
  | _ :: rest => consistentEvents rest

example :
    (cleanupTick 5000 [⟨"A", "Alice", "red", 0⟩, ⟨"B", "Bob", "blue", 4000⟩])
      = ([⟨"B", "Bob", "blue", 4000⟩],
         [Event.statusChange (disconnectedStatus "Alice"),
          Event.message (.playerLeft "A"),
          Event.connectionChange 1,
          Event.playerListChange [⟨"B", "Bob", "blue", 4000⟩]]) := by decide

example :
    (destroy (initManager "me") "m1").2 = none := by decide

example :
    (bcOnMessage (initManager "me") 3 ⟨.heartbeat "A" "Alice" "red", some "x"⟩).1
      = { peerId := "me", destroyed := false, seenMessageIds := ["x"],
          remotePlayers := [⟨"A", "Alice", "red", 3⟩] } := by decide

/-! ## Helper lemmas about the registry association list -/

lemma mapGet_mapDelete (reg : List RemotePlayerInfo) (pid : String) :
    mapGet (mapDelete reg pid) pid = none := by
  apply List.find?_eq_none.mpr
  intro p hp
  have := List.of_mem_filter hp
  simpa [bne] using this

lemma find_map_replace (reg : List RemotePlayerInfo)
    (info : RemotePlayerInfo) :
    (reg.map (fun p => if p.id == info.id then info else p)).find?
        (fun p => p.id == info.id)
      = if reg.any (fun p => p.id == info.id) then some info else none := by
  induction reg with
  | nil => simp
  | cons p rest ih =>
    by_cases h : p.id = info.id
    · have hf : (fun q : RemotePlayerInfo =>
          if q.id == info.id then info else q) p = info := by simp [h]
      simp only [List.map_cons, hf]
      rw [List.find?_cons_of_pos _ (by simp)]
      simp [List.any_cons, h]
    · have hf : (fun q : RemotePlayerInfo =>
          if q.id == info.id then info else q) p = p := by simp [h]
      simp only [List.map_cons, hf]
      rw [List.find?_cons_of_neg _ (by simp [h])]
      rw [ih]
      have hb : (p.id == info.id) = false := by simp [h]
      simp [List.any_cons, hb]

lemma mapGet_mapSet_self (reg : List RemotePlayerInfo)
    (info : RemotePlayerInfo) :
    mapGet (mapSet reg info) info.id = some info := by
  unfold mapGet mapSet
  by_cases h : reg.any (fun p => p.id == info.id)
  · simp only [h, if_true]
    simpa [h] using find_map_replace reg info
  · rw [if_neg h]
    rw [List.find?_append]
    have hnone : reg.find? (fun p => p.id == info.id) = none := by
      apply List.find?_eq_none.mpr
      intro p hp
      intro hpe
      exact h (List.any_eq_true.mpr ⟨p, hp, hpe⟩)
    simp [hnone, List.find?]

lemma mapGet_isSome_eq_any (reg : List RemotePlayerInfo) (pid : String) :
    (mapGet reg pid).isSome = reg.any (fun p => p.id == pid) := by
  induction reg with
  | nil => simp [mapGet]
  | cons p rest ih =>
    by_cases h : (p.id == pid) = true
    · simp [mapGet, List.find?, h]
    · simp only [Bool.not_eq_true] at h
      simp [mapGet, List.find?, h, List.any_cons]
      simpa [mapGet] using ih

lemma mapGet_id_eq (reg : List RemotePlayerInfo) (pid : String)
    (e : RemotePlayerInfo) (h : mapGet reg pid = some e) : e.id = pid := by
  have := List.find?_some h
  simpa using this

/-- The self-filter at the top of `handleIncomingMessage`: a message
carrying this instance's own peer id is discarded with no registry
change and no events. -/
lemma handleIncomingMessage_self (selfId : String) (now : Nat)
    (reg : List RemotePlayerInfo) (msg : MultiplayerMessage)
    (h : msg.peerIdOf = selfId) :
    handleIncomingMessage selfId now reg msg = (reg, []) := by
  unfold handleIncomingMessage
  simp [h]

/-! ## C1, C7, C9 -/

/-- C1 (divergence witness): `destroy()` never puts the final
`playerLeft` on the wire. The method sets `destroyed := true` first and
`broadcast` early-returns on the `destroyed` flag, so the departure
broadcast announced by the code's own comment is silently skipped. -/
theorem destroy_broadcasts_no_playerLeft (st : ManagerState)
    (msgId : String) : (destroy st msgId).2 = none := by
  simp [destroy, broadcastSends]

/-- C7: a delivered message whose sender peer id equals this instance's
own id is never processed: on the broadcast-channel transport it
mutates no registry entry and fires no callback, and on the storage
transport a wrapper whose `from` field equals the own id is discarded
before its payload is looked at, whatever that payload is. -/
theorem self_messages_never_processed (st : ManagerState) (now : Nat)
    (wire : WireMessage) (roomId : String) (key : Option String)
    (h : wire.msg.peerIdOf = st.peerId) :
    (bcOnMessage st now wire).1.remotePlayers = st.remotePlayers
      ∧ (bcOnMessage st now wire).2 = []
      ∧ ∀ data : WireMessage,
          storageOnMessage st now roomId key
              (some { fromId := st.peerId, data := data }) = (st, []) := by
  have hmain : (bcOnMessage st now wire).1.remotePlayers = st.remotePlayers
      ∧ (bcOnMessage st now wire).2 = [] := by
    unfold bcOnMessage dedupAndHandle
    rcases hd : st.destroyed with _ | _
    · rcases hw : wire.msgId with _ | mid
      · simp [handleIncomingMessage_self st.peerId now st.remotePlayers wire.msg h]
      · by_cases hc : st.seenMessageIds.contains mid
        · have hc' : mid ∈ st.seenMessageIds := by simpa using hc
          simp [hc']
        · have hc' : mid ∉ st.seenMessageIds := by simpa using hc
          simp [hc',
            handleIncomingMessage_self st.peerId now st.remotePlayers wire.msg h]
    · simp
  refine ⟨hmain.1, hmain.2, ?_⟩
  intro data
  unfold storageOnMessage
  rcases hd : st.destroyed with _ | _
  · rcases key with _ | k
    · simp
    · by_cases hk : strStartsWith k ("cr-" ++ roomId ++ "-") = true
      · simp [hk]
      · simp [Bool.not_eq_true] at hk
        simp [hk]
  · simp

/-- Witness for C7 at a concrete input. -/
theorem self_messages_never_processed_witness :
    (bcOnMessage (initManager "me") 5
        ⟨.heartbeat "me" "Me" "red", some "m1"⟩).1.remotePlayers
        = (initManager "me").remotePlayers
      ∧ (bcOnMessage (initManager "me") 5
          ⟨.heartbeat "me" "Me" "red", some "m1"⟩).2 = []
      ∧ ∀ data : WireMessage,
          storageOnMessage (initManager "me") 5 "AB" (some "cr-AB-1-x")
              (some { fromId := (initManager "me").peerId, data := data })
            = (initManager "me", []) :=
  self_messages_never_processed (initManager "me") 5
    ⟨.heartbeat "me" "Me" "red", some "m1"⟩ "AB" (some "cr-AB-1-x") (by decide)

/-- C9: an accepted `playerLeft` removes the peer's registry entry
immediately whatever its `lastSeen`; when the peer was known, the
departure status notification fires with the peer's last-known name
(and no status fires when it was unknown); and in every case exactly
one `onConnectionChange` and one `onPlayerListChange` fire. -/
theorem playerLeft_removes_and_notifies (selfId : String) (now : Nat)
    (reg : List RemotePlayerInfo) (pid : String) (h : pid ≠ selfId) :
    mapGet (handleIncomingMessage selfId now reg (.playerLeft pid)).1 pid
        = none
      ∧ (∀ l, mapGet reg pid = some l →
          Event.statusChange (leftStatus l.name)
            ∈ (handleIncomingMessage selfId now reg (.playerLeft pid)).2)
      ∧ (mapGet reg pid = none →
          ((handleIncomingMessage selfId now reg (.playerLeft pid)).2).countP
            Event.isStatusChange = 0)
      ∧ ((handleIncomingMessage selfId now reg (.playerLeft pid)).2).countP
          Event.isConnectionChange = 1
      ∧ ((handleIncomingMessage selfId now reg (.playerLeft pid)).2).countP
          Event.isPlayerListChange = 1 := by
  unfold handleIncomingMessage
  simp only [MultiplayerMessage.peerIdOf, beq_iff_eq, h, if_false]
  rcases hg : mapGet reg pid with _ | l
  · refine ⟨mapGet_mapDelete reg pid, ?_, ?_, ?_, ?_⟩ <;>
      simp [notifyConnectionChange, List.countP_append, List.countP_cons,
        Event.isStatusChange, Event.isConnectionChange,
        Event.isPlayerListChange, hg]
  · refine ⟨mapGet_mapDelete reg pid, ?_, ?_, ?_, ?_⟩ <;>
      simp [notifyConnectionChange, List.countP_append, List.countP_cons,
        Event.isStatusChange, Event.isConnectionChange,
        Event.isPlayerListChange, hg]

/-- Witness for C9 at a concrete input. -/
theorem playerLeft_removes_and_notifies_witness :
    mapGet (handleIncomingMessage "me" 99 [⟨"A", "Alice", "red", 0⟩]
        (.playerLeft "A")).1 "A" = none
      ∧ (∀ l, mapGet [⟨"A", "Alice", "red", 0⟩] "A" = some l →
          Event.statusChange (leftStatus l.name)
            ∈ (handleIncomingMessage "me" 99 [⟨"A", "Alice", "red", 0⟩]
                (.playerLeft "A")).2)
      ∧ (mapGet [⟨"A", "Alice", "red", 0⟩] "A" = none →
          ((handleIncomingMessage "me" 99 [⟨"A", "Alice", "red", 0⟩]
              (.playerLeft "A")).2).countP Event.isStatusChange = 0)
      ∧ ((handleIncomingMessage "me" 99 [⟨"A", "Alice", "red", 0⟩]
          (.playerLeft "A")).2).countP Event.isConnectionChange = 1
      ∧ ((handleIncomingMessage "me" 99 [⟨"A", "Alice", "red", 0⟩]
          (.playerLeft "A")).2).countP Event.isPlayerListChange = 1 :=
  playerLeft_removes_and_notifies "me" 99 [⟨"A", "Alice", "red", 0⟩] "A"
    (by decide)

/-! ## C2, C3 -/

lemma handleJoinLike_fst (now : Nat) (reg : List RemotePlayerInfo)
    (pid name color : String) (isJoin : Bool) :
    (handleJoinLike now reg pid name color isJoin).1
      = mapSet reg ⟨pid, name, color, now⟩ := by
  unfold handleJoinLike
  by_cases hw : reg.any (fun p => p.id == pid) <;> simp [hw]

/-- C2 counterexample: an accepted `levelChange` from the known peer
`"A"` at time 5000 leaves the registry untouched, so `lastSeen` stays
`0` instead of being refreshed to the current time. -/
theorem levelChange_does_not_refresh_lastSeen :
    (handleIncomingMessage "me" 5000 [⟨"A", "Alice", "red", 0⟩]
        (.levelChange 1 "A")).1 = [⟨"A", "Alice", "red", 0⟩]
      ∧ mapGet (handleIncomingMessage "me" 5000 [⟨"A", "Alice", "red", 0⟩]
          (.levelChange 1 "A")).1 "A" = some ⟨"A", "Alice", "red", 0⟩
      ∧ (0 : Nat) ≠ 5000 := by decide

/-- C2 (amended): accepted `playerJoin`, `heartbeat` and `playerUpdate`
messages set the sender's `lastSeen` to the current time (join and
heartbeat also store the carried name/color), while accepted
`levelChange` and `startGame` messages leave the registry untouched. -/
theorem accepted_messages_refresh_registry (selfId : String) (now : Nat)
    (reg : List RemotePlayerInfo) (pid name color : String)
    (player : PlayerState) (lvl : Int) (h : pid ≠ selfId) :
    mapGet (handleIncomingMessage selfId now reg
        (.playerJoin pid name color)).1 pid = some ⟨pid, name, color, now⟩
      ∧ mapGet (handleIncomingMessage selfId now reg
          (.heartbeat pid name color)).1 pid = some ⟨pid, name, color, now⟩
      ∧ (∃ e, mapGet (handleIncomingMessage selfId now reg
            (.playerUpdate player pid)).1 pid = some e ∧ e.lastSeen = now)
      ∧ (handleIncomingMessage selfId now reg (.levelChange lvl pid)).1 = reg
      ∧ (handleIncomingMessage selfId now reg (.startGame lvl pid)).1
          = reg := by
  have hbeq : (pid == selfId) = false := by simp [h]
  refine ⟨?_, ?_, ?_, ?_, ?_⟩
  · simp only [handleIncomingMessage, MultiplayerMessage.peerIdOf, hbeq,
      Bool.false_eq_true, if_false, handleJoinLike_fst]
    exact mapGet_mapSet_self reg ⟨pid, name, color, now⟩
  · simp only [handleIncomingMessage, MultiplayerMessage.peerIdOf, hbeq,
      Bool.false_eq_true, if_false, handleJoinLike_fst]
    exact mapGet_mapSet_self reg ⟨pid, name, color, now⟩
  · simp only [handleIncomingMessage, MultiplayerMessage.peerIdOf, hbeq,
      Bool.false_eq_true, if_false]
    rcases hg : mapGet reg pid with _ | existing
    · exact ⟨⟨pid, player.name, player.color, now⟩,
        mapGet_mapSet_self reg ⟨pid, player.name, player.color, now⟩, rfl⟩
    · refine ⟨{ existing with lastSeen := now }, ?_, rfl⟩
      show mapGet (mapSet reg { existing with lastSeen := now }) pid
          = some { existing with lastSeen := now }
      have heid : existing.id = pid := mapGet_id_eq reg pid existing hg
      rw [heid]
      exact mapGet_mapSet_self reg
        ⟨pid, existing.name, existing.color, now⟩
  · simp [handleIncomingMessage, MultiplayerMessage.peerIdOf, hbeq]
  · simp [handleIncomingMessage, MultiplayerMessage.peerIdOf, hbeq]

/-- Witness for the amended C2 at a concrete input. -/
theorem accepted_messages_refresh_registry_witness :
    mapGet (handleIncomingMessage "me" 42 [⟨"A", "Old", "grey", 0⟩]
        (.playerJoin "A" "Alice" "red")).1 "A" = some ⟨"A", "Alice", "red", 42⟩
      ∧ mapGet (handleIncomingMessage "me" 42 [⟨"A", "Old", "grey", 0⟩]
          (.heartbeat "A" "Alice" "red")).1 "A" = some ⟨"A", "Alice", "red", 42⟩
      ∧ (∃ e, mapGet (handleIncomingMessage "me" 42 [⟨"A", "Old", "grey", 0⟩]
            (.playerUpdate ⟨0, 0, 0, 0, 20, 20, true, "red", "Alice",
              false, false, 0⟩ "A")).1 "A" = some e ∧ e.lastSeen = 42)
      ∧ (handleIncomingMessage "me" 42 [⟨"A", "Old", "grey", 0⟩]
          (.levelChange 2 "A")).1 = [⟨"A", "Old", "grey", 0⟩]
      ∧ (handleIncomingMessage "me" 42 [⟨"A", "Old", "grey", 0⟩]
          (.startGame 2 "A")).1 = [⟨"A", "Old", "grey", 0⟩] :=
  accepted_messages_refresh_registry "me" 42 [⟨"A", "Old", "grey", 0⟩]
    "A" "Alice" "red" ⟨0, 0, 0, 0, 20, 20, true, "red", "Alice",
      false, false, 0⟩ 2 (by decide)

/-- C3 counterexample: the first accepted `playerUpdate` from the
unknown peer `"A"` makes the peer Known (its registry entry appears)
yet fires no `onStatusChange` at all, so the Unknown→Known transition
caused by `playerUpdate` does not fire the "peer joined" status
notification the claim promises. -/
theorem first_playerUpdate_fires_no_join_status :
    (mapGet (handleIncomingMessage "me" 0 []
        (.playerUpdate ⟨0, 0, 0, 0, 20, 20, true, "red", "Alice",
          false, false, 0⟩ "A")).1 "A").isSome = true
      ∧ ((handleIncomingMessage "me" 0 []
          (.playerUpdate ⟨0, 0, 0, 0, 20, 20, true, "red", "Alice",
            false, false, 0⟩ "A")).2).countP Event.isStatusChange
          = 0 := by decide

/-- C3 (amended): the Unknown→Known transition caused by a first
`playerJoin` or `heartbeat` fires the "peer joined" status notification
and the connection-count/player-list notifications exactly once (plus,
for `playerJoin`, the delayed reply announcement); the transition
caused by a first `playerUpdate` fires only the
connection-count/player-list notifications, with no join status; and
once the peer is Known, further `playerJoin`, `heartbeat` or
`playerUpdate` messages fire none of these notifications again. -/
theorem join_notifications_once_per_transition (selfId : String)
    (now : Nat) (reg : List RemotePlayerInfo) (pid name color : String)
    (player : PlayerState) (h : pid ≠ selfId) :
    (mapGet reg pid = none →
        (handleIncomingMessage selfId now reg (.playerJoin pid name color)).2
            = [Event.statusChange (joinedStatus name)]
                ++ notifyConnectionChange (mapSet reg ⟨pid, name, color, now⟩)
                ++ [Event.scheduleAnnounceJoin 50]
          ∧ (handleIncomingMessage selfId now reg (.heartbeat pid name color)).2
            = [Event.statusChange (joinedStatus name)]
                ++ notifyConnectionChange (mapSet reg ⟨pid, name, color, now⟩)
          ∧ (handleIncomingMessage selfId now reg (.playerUpdate player pid)).2
            = notifyConnectionChange
                  (mapSet reg ⟨pid, player.name, player.color, now⟩)
                ++ [Event.message (.playerUpdate player pid)])
      ∧ ((mapGet reg pid).isSome = true →
        (handleIncomingMessage selfId now reg (.playerJoin pid name color)).2
            = []
          ∧ (handleIncomingMessage selfId now reg (.heartbeat pid name color)).2
            = []
          ∧ (handleIncomingMessage selfId now reg (.playerUpdate player pid)).2
            = [Event.message (.playerUpdate player pid)]) := by
  have hbeq : (pid == selfId) = false := by simp [h]
  constructor
  · intro hnone
    have hany : reg.any (fun p => p.id == pid) = false := by
      rw [← mapGet_isSome_eq_any, hnone]
      rfl
    refine ⟨?_, ?_, ?_⟩ <;>
      simp [handleIncomingMessage, MultiplayerMessage.peerIdOf, hbeq,
        handleJoinLike, hany, hnone]
  · intro hsome
    have hany : reg.any (fun p => p.id == pid) = true := by
      rw [← mapGet_isSome_eq_any, hsome]
    rcases Option.isSome_iff_exists.mp hsome with ⟨e, he⟩
    refine ⟨?_, ?_, ?_⟩ <;>
      simp [handleIncomingMessage, MultiplayerMessage.peerIdOf, hbeq,
        handleJoinLike, hany, he]

/-- Witness for the amended C3 at concrete inputs (one unknown peer,
one known peer). -/
theorem join_notifications_once_per_transition_witness :
    ((mapGet ([] : List RemotePlayerInfo) "A" = none →
        (handleIncomingMessage "me" 3 [] (.playerJoin "A" "Alice" "red")).2
            = [Event.statusChange (joinedStatus "Alice")]
                ++ notifyConnectionChange (mapSet [] ⟨"A", "Alice", "red", 3⟩)
                ++ [Event.scheduleAnnounceJoin 50]
          ∧ (handleIncomingMessage "me" 3 [] (.heartbeat "A" "Alice" "red")).2
            = [Event.statusChange (joinedStatus "Alice")]
                ++ notifyConnectionChange (mapSet [] ⟨"A", "Alice", "red", 3⟩)
          ∧ (handleIncomingMessage "me" 3 []
              (.playerUpdate ⟨0, 0, 0, 0, 20, 20, true, "red", "Alice",
                false, false, 0⟩ "A")).2
            = notifyConnectionChange (mapSet [] ⟨"A", "Alice", "red", 3⟩)
                ++ [Event.message (.playerUpdate
                    ⟨0, 0, 0, 0, 20, 20, true, "red", "Alice",
                      false, false, 0⟩ "A")])
      ∧ ((mapGet ([] : List RemotePlayerInfo) "A").isSome = true →
        (handleIncomingMessage "me" 3 [] (.playerJoin "A" "Alice" "red")).2
            = []
          ∧ (handleIncomingMessage "me" 3 [] (.heartbeat "A" "Alice" "red")).2
            = []
          ∧ (handleIncomingMessage "me" 3 []
              (.playerUpdate ⟨0, 0, 0, 0, 20, 20, true, "red", "Alice",
                false, false, 0⟩ "A")).2
            = [Event.message (.playerUpdate
                ⟨0, 0, 0, 0, 20, 20, true, "red", "Alice",
                  false, false, 0⟩ "A")])) :=
  join_notifications_once_per_transition "me" 3 [] "A" "Alice" "red"
    ⟨0, 0, 0, 0, 20, 20, true, "red", "Alice", false, false, 0⟩ (by decide)

/-! ## The cleanup pass in closed form (for C4, C8, C10) -/

/-- The two events the cleanup loop fires for one evicted peer. -/
def evictionEvents (p : RemotePlayerInfo) : List Event :=
  [Event.statusChange (disconnectedStatus p.name),
   Event.message (.playerLeft p.id)]

lemma cleanupPass_spec (now : Nat) :
    ∀ (pending reg : List RemotePlayerInfo) (evs : List Event) (ch : Bool),
    cleanupPass now pending reg evs ch =
      (pending.foldl
          (fun r p => if now - p.lastSeen > 3000 then mapDelete r p.id else r)
          reg,
        evs ++ pending.bind (fun p =>
          if now - p.lastSeen > 3000 then evictionEvents p else []),
        ch || pending.any (fun p => decide (now - p.lastSeen > 3000))) := by
  intro pending
  induction pending with
  | nil => intro reg evs ch; simp [cleanupPass]
  | cons p rest ih =>
    intro reg evs ch
    by_cases hp : now - p.lastSeen > 3000
    · simp only [cleanupPass, if_pos hp, ih, evictionEvents, List.foldl_cons,
        if_pos hp, List.cons_bind, List.any_cons, decide_eq_true hp]
      simp [List.append_assoc, evictionEvents]
    · simp only [cleanupPass, if_neg hp, ih, List.foldl_cons, if_neg hp,
        List.cons_bind, List.any_cons]
      simp [hp]

lemma foldl_delete_eq (now : Nat) :
    ∀ (l r : List RemotePlayerInfo),
    l.foldl (fun r p => if now - p.lastSeen > 3000 then mapDelete r p.id else r)
        r
      = r.filter (fun q => !(l.any (fun p =>
          decide (now - p.lastSeen > 3000) && (p.id == q.id)))) := by
  intro l
  induction l with
  | nil => intro r; simp
  | cons p rest ih =>
    intro r
    by_cases hp : now - p.lastSeen > 3000
    · rw [List.foldl_cons, if_pos hp]
      rw [ih (mapDelete r p.id)]
      unfold mapDelete
      rw [List.filter_filter]
      apply List.filter_congr
      intro q _
      by_cases hqe : p.id = q.id
      · simp [List.any_cons, hqe, decide_eq_true hp, bne, eq_comm]
      · have h1 : (p.id == q.id) = false := by simp [hqe]
        have h2 : (q.id == p.id) = false := by
          rw [beq_eq_false_iff_ne]
          exact fun h => hqe h.symm
        simp [List.any_cons, h1, h2, decide_eq_true hp, bne,
          Bool.and_comm]
    · rw [List.foldl_cons, if_neg hp]
      rw [ih r]
      apply List.filter_congr
      intro q _
      simp [List.any_cons, hp]

lemma bind_if_stale (now : Nat) :
    ∀ l : List RemotePlayerInfo,
    (l.bind fun p =>
        if now - p.lastSeen > 3000 then evictionEvents p else [])
      = (l.filter (fun p => decide (now - p.lastSeen > 3000))).bind
          evictionEvents := by
  intro l
  induction l with
  | nil => simp
  | cons p rest ih =>
    by_cases hp : now - p.lastSeen > 3000 <;>
      simp [List.cons_bind, hp, ih]

lemma evictionEvents_bind_counts (l : List RemotePlayerInfo) :
    ((l.bind evictionEvents).countP Event.isStatusChange = l.length)
      ∧ ((l.bind evictionEvents).countP Event.isConnectionChange = 0)
      ∧ ((l.bind evictionEvents).countP Event.isPlayerListChange = 0) := by
  induction l with
  | nil => simp
  | cons p rest ih =>
    simp [List.cons_bind, evictionEvents, List.countP_append,
      List.countP_cons, Event.isStatusChange, Event.isConnectionChange,
      Event.isPlayerListChange, ih.1, ih.2.1, ih.2.2]

/-- The cleanup tick in closed form: survivors are the non-stale
entries (given unique registry ids), and the events are the per-evicted
pairs followed by one membership notification iff anything was
evicted. -/
lemma cleanupTick_closed (now : Nat) (reg : List RemotePlayerInfo)
    (hnodup : (reg.map RemotePlayerInfo.id).Nodup) :
    cleanupTick now reg =
      (reg.filter (fun p => !(decide (now - p.lastSeen > 3000))),
        (reg.filter (fun p => decide (now - p.lastSeen > 3000))).bind
            evictionEvents
          ++ if reg.filter (fun p =>
                decide (now - p.lastSeen > 3000)) = [] then []
             else notifyConnectionChange (reg.filter (fun p =>
                !(decide (now - p.lastSeen > 3000))))) := by
  have hreg : reg.foldl
      (fun r p => if now - p.lastSeen > 3000 then mapDelete r p.id else r) reg
      = reg.filter (fun p => !(decide (now - p.lastSeen > 3000))) := by
    rw [foldl_delete_eq]
    apply List.filter_congr
    intro q hq
    by_cases hs : now - q.lastSeen > 3000
    · have : reg.any (fun p =>
          decide (now - p.lastSeen > 3000) && (p.id == q.id)) = true :=
        List.any_eq_true.mpr ⟨q, hq, by simp [decide_eq_true hs]⟩
      simp [this, hs]
    · have : reg.any (fun p =>
          decide (now - p.lastSeen > 3000) && (p.id == q.id)) = false := by
        rw [Bool.eq_false_iff]
        intro hany
        rcases List.any_eq_true.mp hany with ⟨p, hp, hcond⟩
        have hcond' : (now - p.lastSeen > 3000) ∧ p.id = q.id := by
          simpa using hcond
        have hpq : p = q :=
          List.inj_on_of_nodup_map hnodup hp hq hcond'.2
        rw [hpq] at hcond'
        exact hs hcond'.1
      simp [this, hs]
  by_cases hfil : reg.filter (fun p => decide (now - p.lastSeen > 3000)) = []
  · have hany : reg.any (fun p => decide (now - p.lastSeen > 3000))
        = false := by
      rw [Bool.eq_false_iff]
      intro h
      rcases List.any_eq_true.mp h with ⟨p, hp, hps⟩
      exact (List.filter_eq_nil_iff.mp hfil p hp) hps
    unfold cleanupTick
    rw [cleanupPass_spec]
    dsimp only
    rw [hreg, bind_if_stale, hfil, if_pos rfl]
    simp [hany]
  · have hany : reg.any (fun p => decide (now - p.lastSeen > 3000))
        = true := by
      rcases List.exists_mem_of_ne_nil _ hfil with ⟨p, hp⟩
      rcases List.mem_filter.mp hp with ⟨hpreg, hps⟩
      exact List.any_eq_true.mpr ⟨p, hpreg, hps⟩
    unfold cleanupTick
    rw [cleanupPass_spec]
    dsimp only
    rw [hreg, bind_if_stale, if_neg hfil]
    simp [hany]

/-! ## C4, C8 -/

/-- C4: one cleanup pass removes exactly the peers whose `lastSeen` age
exceeds 3000 ms, fires the departure status and the synthetic
`playerLeft` once per evicted peer, and fires the membership
notifications exactly once iff at least one peer was evicted. -/
theorem cleanup_tick_evicts_and_notifies (now : Nat)
    (reg : List RemotePlayerInfo)
    (hnodup : (reg.map RemotePlayerInfo.id).Nodup) :
    (cleanupTick now reg).1
        = reg.filter (fun p => !(decide (now - p.lastSeen > 3000)))
      ∧ (∀ p ∈ reg.filter (fun p => decide (now - p.lastSeen > 3000)),
          Event.statusChange (disconnectedStatus p.name)
              ∈ (cleanupTick now reg).2
            ∧ Event.message (.playerLeft p.id) ∈ (cleanupTick now reg).2)
      ∧ ((cleanupTick now reg).2).countP Event.isStatusChange
          = (reg.filter (fun p => decide (now - p.lastSeen > 3000))).length
      ∧ ((cleanupTick now reg).2).countP Event.isConnectionChange
          = (if reg.filter (fun p =>
              decide (now - p.lastSeen > 3000)) = [] then 0 else 1)
      ∧ ((cleanupTick now reg).2).countP Event.isPlayerListChange
          = (if reg.filter (fun p =>
              decide (now - p.lastSeen > 3000)) = [] then 0 else 1) := by
  rw [cleanupTick_closed now reg hnodup]
  refine ⟨rfl, ?_, ?_, ?_, ?_⟩
  · intro p hp
    constructor
    · apply List.mem_append_left
      exact List.mem_bind.mpr ⟨p, hp, by simp [evictionEvents]⟩
    · apply List.mem_append_left
      exact List.mem_bind.mpr ⟨p, hp, by simp [evictionEvents]⟩
  · rw [List.countP_append, (evictionEvents_bind_counts _).1]
    by_cases hfil : reg.filter (fun p =>
        decide (now - p.lastSeen > 3000)) = []
    · rw [if_pos hfil, hfil]
      simp
    · rw [if_neg hfil]
      simp [notifyConnectionChange, List.countP_cons, Event.isStatusChange]
  · rw [List.countP_append, (evictionEvents_bind_counts _).2.1]
    by_cases hfil : reg.filter (fun p =>
        decide (now - p.lastSeen > 3000)) = []
    · rw [if_pos hfil, if_pos hfil]
      simp
    · rw [if_neg hfil, if_neg hfil]
      simp [notifyConnectionChange, List.countP_cons,
        Event.isConnectionChange]
  · rw [List.countP_append, (evictionEvents_bind_counts _).2.2]
    by_cases hfil : reg.filter (fun p =>
        decide (now - p.lastSeen > 3000)) = []
    · rw [if_pos hfil, if_pos hfil]
      simp
    · rw [if_neg hfil, if_neg hfil]
      simp [notifyConnectionChange, List.countP_cons,
        Event.isPlayerListChange]

/-- Concrete three-peer registry observed at time 5000: A and C are
stale, B is live. -/
def sampleReg : List RemotePlayerInfo :=
  [⟨"A", "Alice", "red", 0⟩, ⟨"B", "Bob", "blue", 4500⟩,
    ⟨"C", "Cara", "green", 100⟩]

/-- Witness for C4 at a concrete input. -/
theorem cleanup_tick_evicts_and_notifies_witness :
    (cleanupTick 5000 sampleReg).1
        = sampleReg.filter (fun p => !(decide (5000 - p.lastSeen > 3000)))
      ∧ (∀ p ∈ sampleReg.filter (fun p => decide (5000 - p.lastSeen > 3000)),
          Event.statusChange (disconnectedStatus p.name)
              ∈ (cleanupTick 5000 sampleReg).2
            ∧ Event.message (.playerLeft p.id)
              ∈ (cleanupTick 5000 sampleReg).2)
      ∧ ((cleanupTick 5000 sampleReg).2).countP Event.isStatusChange
          = (sampleReg.filter (fun p =>
              decide (5000 - p.lastSeen > 3000))).length
      ∧ ((cleanupTick 5000 sampleReg).2).countP Event.isConnectionChange
          = (if sampleReg.filter (fun p =>
              decide (5000 - p.lastSeen > 3000)) = [] then 0 else 1)
      ∧ ((cleanupTick 5000 sampleReg).2).countP Event.isPlayerListChange
          = (if sampleReg.filter (fun p =>
              decide (5000 - p.lastSeen > 3000)) = [] then 0 else 1) :=
  cleanup_tick_evicts_and_notifies 5000 sampleReg (by decide)

/-- C8 counterexample: both directions of the claimed equivalence fail
on a concrete trace, observed at wall-clock time 3500. A heartbeat
from peer A is accepted at time 0 and the cleanup interval fires at
time 2000 (A's age 2000 ≤ 3000, so A survives); at time 3500 — before
the next firing at 4000 — A's entry still exists although A's last
accepted message is 3500 ms old, outside the 3000 ms window (the
"only if" direction fails). A `startGame` from peer B is accepted at
time 3400 — within the window at time 3500 — yet no registry entry for
B exists, because `startGame` (like `levelChange`) never creates one
(the "if" direction fails). -/
theorem liveness_window_iff_fails :
    mapGet (runTrace (initManager "me")
        [.deliver 0 ⟨.heartbeat "A" "Alice" "red", some "m1"⟩,
          .tick 2000,
          .deliver 3400 ⟨.startGame 1 "B", some "m2"⟩]).remotePlayers "A"
      = some ⟨"A", "Alice", "red", 0⟩
    ∧ 3500 - (0 : Nat) > 3000
    ∧ mapGet (runTrace (initManager "me")
        [.deliver 0 ⟨.heartbeat "A" "Alice" "red", some "m1"⟩,
          .tick 2000,
          .deliver 3400 ⟨.startGame 1 "B", some "m2"⟩]).remotePlayers "B"
      = none
    ∧ 3500 - (3400 : Nat) ≤ 3000 := by decide

/-- C8 (amended): stale registry entries are removed eagerly by the
Liveness Driver's pass, not lazily on access — immediately after a
cleanup pass, every surviving registry entry's `lastSeen` lies within
the 3000 ms liveness window. (The original "entry exists iff a message
was accepted within the last 3000 ms, at every point in time" holds in
neither direction, as the counterexample shows: an expired entry may
persist for up to one 2000 ms poll period between passes, and an
accepted `startGame`/`levelChange` creates no entry while `playerLeft`
removes one despite being a recently accepted message.) -/
theorem cleanup_pass_leaves_only_live_entries (now : Nat)
    (reg : List RemotePlayerInfo) (p : RemotePlayerInfo)
    (hp : p ∈ (cleanupTick now reg).1) : now - p.lastSeen ≤ 3000 := by
  unfold cleanupTick at hp
  rw [cleanupPass_spec] at hp
  simp only at hp
  rw [foldl_delete_eq] at hp
  rcases List.mem_filter.mp hp with ⟨hpreg, hpred⟩
  by_contra hgt
  have hstale : now - p.lastSeen > 3000 := Nat.lt_of_not_le hgt
  have : reg.any (fun q =>
      decide (now - q.lastSeen > 3000) && (q.id == p.id)) = true :=
    List.any_eq_true.mpr ⟨p, hpreg, by simp [decide_eq_true hstale]⟩
  rw [this] at hpred
  simp at hpred

/-- Witness for the amended C8 at a concrete input. -/
theorem cleanup_pass_leaves_only_live_entries_witness :
    5000 - (⟨"A", "Alice", "red", 4000⟩ : RemotePlayerInfo).lastSeen
      ≤ 3000 :=
  cleanup_pass_leaves_only_live_entries 5000 [⟨"A", "Alice", "red", 4000⟩]
    ⟨"A", "Alice", "red", 4000⟩ (by decide)

/-! ## C10 -/

lemma consistentEvents_notify_append (reg : List RemotePlayerInfo)
    (tail : List Event) :
    consistentEvents (notifyConnectionChange reg ++ tail)
      = consistentEvents tail := by
  simp [notifyConnectionChange, consistentEvents]

lemma consistentEvents_append_of_plain (l₁ l₂ : List Event)
    (h : ∀ e ∈ l₁, e.isConnectionChange = false
      ∧ e.isPlayerListChange = false)
    (h₂ : consistentEvents l₂ = true) :
    consistentEvents (l₁ ++ l₂) = true := by
  induction l₁ with
  | nil => simpa using h₂
  | cons e t ih =>
    have he := h e (List.mem_cons_self e t)
    have ht : ∀ e ∈ t, e.isConnectionChange = false
        ∧ e.isPlayerListChange = false :=
      fun e' he' => h e' (List.mem_cons_of_mem e he')
    cases e with
    | statusChange s => simpa [consistentEvents] using ih ht
    | message m => simpa [consistentEvents] using ih ht
    | gameStart lv => simpa [consistentEvents] using ih ht
    | scheduleAnnounceJoin d => simpa [consistentEvents] using ih ht
    | connectionChange c => simp [Event.isConnectionChange] at he
    | playerListChange l => simp [Event.isPlayerListChange] at he

lemma eviction_bind_plain (now : Nat) (reg : List RemotePlayerInfo) :
    ∀ e ∈ (reg.bind fun p =>
        if now - p.lastSeen > 3000 then evictionEvents p else []),
      e.isConnectionChange = false ∧ e.isPlayerListChange = false := by
  intro e he
  rcases List.mem_bind.mp he with ⟨p, _, hin⟩
  by_cases hp : now - p.lastSeen > 3000
  · rw [if_pos hp] at hin
    simp only [evictionEvents, List.mem_cons, List.not_mem_nil,
      or_false] at hin
    rcases hin with h | h <;> subst h <;> exact ⟨rfl, rfl⟩
  · rw [if_neg hp] at hin
    simp at hin

/-- C10: `getConnectedCount()` always equals the length of
`getPlayerList()`, and in every event sequence the synchronizer emits
(inbound handling and cleanup passes alike), `onConnectionChange` and
`onPlayerListChange` fire together, the count passed to the former
being the length of the list passed to the latter, both read from the
registry at the same moment. -/
theorem membership_notifications_paired :
    (∀ st : ManagerState, getConnectedCount st = (getPlayerList st).length)
      ∧ (∀ (selfId : String) (now : Nat) (reg : List RemotePlayerInfo)
            (msg : MultiplayerMessage),
          consistentEvents (handleIncomingMessage selfId now reg msg).2
            = true)
      ∧ (∀ (now : Nat) (reg : List RemotePlayerInfo),
          consistentEvents (cleanupTick now reg).2 = true) := by
  refine ⟨fun _ => rfl, ?_, ?_⟩
  · intro selfId now reg msg
    by_cases hself : msg.peerIdOf == selfId
    · simp [handleIncomingMessage, hself, consistentEvents]
    · cases msg with
      | heartbeat pid name color =>
        simp only [handleIncomingMessage, hself, Bool.false_eq_true,
          if_false]
        unfold handleJoinLike
        by_cases hw : reg.any (fun p => p.id == pid) <;>
          simp [hw, consistentEvents, notifyConnectionChange]
      | playerJoin pid name color =>
        simp only [handleIncomingMessage, hself, Bool.false_eq_true,
          if_false]
        unfold handleJoinLike
        by_cases hw : reg.any (fun p => p.id == pid) <;>
          simp [hw, consistentEvents, notifyConnectionChange]
      | playerUpdate player pid =>
        simp only [handleIncomingMessage, hself, Bool.false_eq_true,
          if_false]
        rcases hg : mapGet reg pid with _ | e <;>
          simp [consistentEvents, notifyConnectionChange]
      | startGame lv pid =>
        simp [handleIncomingMessage, hself, consistentEvents]
      | playerLeft pid =>
        simp only [handleIncomingMessage, hself, Bool.false_eq_true,
          if_false]
        rcases hg : mapGet reg pid with _ | e <;>
          simp [consistentEvents, notifyConnectionChange]
      | levelChange lv pid =>
        simp [handleIncomingMessage, hself, consistentEvents]
  · intro now reg
    unfold cleanupTick
    rw [cleanupPass_spec]
    dsimp only
    apply consistentEvents_append_of_plain
    · simpa using eviction_bind_plain now reg
    · by_cases hany : (false || reg.any
          (fun p => decide (now - p.lastSeen > 3000))) = true <;>
        simp [hany, consistentEvents, notifyConnectionChange]

/-! ## C5, C6 -/

lemma mem_trimSeen_last (l : List String) (x : String) :
    x ∈ trimSeen (l ++ [x]) := by
  unfold trimSeen
  by_cases h : (l ++ [x]).length > 200
  · rw [if_pos h]
    have hn : (l ++ [x]).length - 100 ≤ l.length := by
      simp only [List.length_append, List.length_cons, List.length_nil]
      omega
    rw [List.drop_append_of_le_length hn]
    exact List.mem_append_right _ (List.mem_singleton.mpr rfl)
  · rw [if_neg h]
    exact List.mem_append_right _ (List.mem_singleton.mpr rfl)

lemma trimSeen_length_le (l : List String) : (trimSeen l).length ≤ 200 := by
  unfold trimSeen
  by_cases h : l.length > 200
  · rw [if_pos h, List.length_drop]
    omega
  · rw [if_neg h]
    omega

/-- C5: for a message bearing id `mid` not yet seen, the first delivery
is processed (it produces exactly the registry change and events of
`handleIncomingMessage`), both transports treat it identically, the id
is recorded, and afterwards — for as long as the id remains in the
seen set of a live manager — any redelivery of that id via either
transport is dropped with no state change and no events. -/
theorem message_ids_processed_once (st : ManagerState) (now now2 : Nat)
    (wire : WireMessage) (mid roomId key sender : String)
    (hmid : wire.msgId = some mid)
    (hdest : st.destroyed = false)
    (hfresh : mid ∉ st.seenMessageIds)
    (hkey : strStartsWith key ("cr-" ++ roomId ++ "-") = true)
    (hsender : sender ≠ st.peerId) :
    (bcOnMessage st now wire).2
        = (handleIncomingMessage st.peerId now st.remotePlayers wire.msg).2
      ∧ (bcOnMessage st now wire).1.remotePlayers
        = (handleIncomingMessage st.peerId now st.remotePlayers wire.msg).1
      ∧ storageOnMessage st now roomId (some key) (some ⟨sender, wire⟩)
        = bcOnMessage st now wire
      ∧ mid ∈ (bcOnMessage st now wire).1.seenMessageIds
      ∧ (∀ st2 : ManagerState, st2.destroyed = false →
          mid ∈ st2.seenMessageIds →
          bcOnMessage st2 now2 wire = (st2, [])
            ∧ (sender ≠ st2.peerId →
                storageOnMessage st2 now2 roomId (some key)
                  (some ⟨sender, wire⟩) = (st2, []))) := by
  have hcontains : (st.seenMessageIds.contains mid) = false := by
    simpa using hfresh
  have hbc : bcOnMessage st now wire
      = ({ st with
            seenMessageIds := trimSeen (st.seenMessageIds ++ [mid]),
            remotePlayers :=
              (handleIncomingMessage st.peerId now st.remotePlayers
                wire.msg).1 },
          (handleIncomingMessage st.peerId now st.remotePlayers
            wire.msg).2) := by
    unfold bcOnMessage dedupAndHandle
    rw [hdest]
    simp [hmid, hfresh]
  refine ⟨by rw [hbc], by rw [hbc], ?_, ?_, ?_⟩
  · unfold storageOnMessage bcOnMessage
    rw [hdest]
    simp only [Bool.false_eq_true, if_false, hkey, Bool.not_true]
    have hs : (sender == st.peerId) = false := by simp [hsender]
    simp [hs]
  · rw [hbc]
    exact mem_trimSeen_last st.seenMessageIds mid
  · intro st2 h2d h2m
    have h2c : (st2.seenMessageIds.contains mid) = true := by
      simpa using h2m
    constructor
    · unfold bcOnMessage dedupAndHandle
      rw [h2d]
      simp [hmid, h2m]
    · intro h2s
      have hs2 : (sender == st2.peerId) = false := by simp [h2s]
      unfold storageOnMessage dedupAndHandle
      rw [h2d]
      simp [hkey, hs2, hmid, h2m]

/-- The manager state after the first delivery in the C5 witness
scenario. -/
def seenState : ManagerState :=
  { peerId := "me", destroyed := false, seenMessageIds := ["m1"],
    remotePlayers := [⟨"A", "Alice", "red", 3⟩] }

/-- Witness for C5 at a concrete input. -/
theorem message_ids_processed_once_witness :
    ((bcOnMessage (initManager "me") 3
          ⟨.heartbeat "A" "Alice" "red", some "m1"⟩).2
        = (handleIncomingMessage "me" 3 []
            (.heartbeat "A" "Alice" "red")).2
      ∧ (bcOnMessage (initManager "me") 3
          ⟨.heartbeat "A" "Alice" "red", some "m1"⟩).1.remotePlayers
        = (handleIncomingMessage "me" 3 []
            (.heartbeat "A" "Alice" "red")).1
      ∧ storageOnMessage (initManager "me") 3 "AB" (some "cr-AB-1-x")
          (some ⟨"other", ⟨.heartbeat "A" "Alice" "red", some "m1"⟩⟩)
        = bcOnMessage (initManager "me") 3
            ⟨.heartbeat "A" "Alice" "red", some "m1"⟩
      ∧ "m1" ∈ (bcOnMessage (initManager "me") 3
          ⟨.heartbeat "A" "Alice" "red", some "m1"⟩).1.seenMessageIds)
      ∧ bcOnMessage seenState 4
          ⟨.heartbeat "A" "Alice" "red", some "m1"⟩ = (seenState, [])
      ∧ storageOnMessage seenState 4 "AB" (some "cr-AB-1-x")
          (some ⟨"other", ⟨.heartbeat "A" "Alice" "red", some "m1"⟩⟩)
        = (seenState, []) := by
  have h := message_ids_processed_once (initManager "me") 3 4
    ⟨.heartbeat "A" "Alice" "red", some "m1"⟩ "m1" "AB" "cr-AB-1-x"
    "other" rfl rfl (by decide) (by decide) (by decide)
  have h2 := h.2.2.2.2 seenState rfl (by decide)
  exact ⟨⟨h.1, h.2.1, h.2.2.1, h.2.2.2.1⟩, h2.1, h2.2 (by decide)⟩

lemma bcOnMessage_seen_le (st : ManagerState) (now : Nat)
    (wire : WireMessage) (h : st.seenMessageIds.length ≤ 200) :
    (bcOnMessage st now wire).1.seenMessageIds.length ≤ 200 := by
  unfold bcOnMessage dedupAndHandle
  cases hd : st.destroyed
  · rcases hw : wire.msgId with _ | mid
    · simpa using h
    · by_cases hc : mid ∈ st.seenMessageIds
      · simpa [hc] using h
      · simpa [hc] using trimSeen_length_le (st.seenMessageIds ++ [mid])
  · simpa using h

lemma runDeliveries_seen_le (msgs : List (Nat × WireMessage)) :
    ∀ st : ManagerState, st.seenMessageIds.length ≤ 200 →
    (runDeliveries st msgs).seenMessageIds.length ≤ 200 := by
  induction msgs with
  | nil => intro st h; exact h
  | cons m rest ih =>
    intro st h
    rw [runDeliveries, List.foldl_cons]
    exact ih _ (bcOnMessage_seen_le st m.1 m.2 h)

/-- C6: starting from a fresh manager, after any sequence of inbound
deliveries the seen-id set never holds more than 200 ids; and whenever
the set tops 200 ids the trim keeps exactly the 100 most recently
inserted ones (a suffix of the insertion order). -/
theorem seen_ids_bounded :
    (∀ (pid : String) (msgs : List (Nat × WireMessage)),
        (runDeliveries (initManager pid) msgs).seenMessageIds.length ≤ 200)
      ∧ (∀ l : List String, 200 < l.length →
          (trimSeen l).length = 100 ∧ List.IsSuffix (trimSeen l) l) := by
  constructor
  · intro pid msgs
    exact runDeliveries_seen_le msgs (initManager pid) (by simp [initManager])
  · intro l h
    constructor
    · unfold trimSeen
      rw [if_pos h, List.length_drop]
      omega
    · unfold trimSeen
      rw [if_pos h]
      exact List.drop_suffix _ l

/-- Witness for C6 at concrete inputs. -/
theorem seen_ids_bounded_witness :
    (runDeliveries (initManager "me")
        [(3, ⟨.heartbeat "A" "Alice" "red", some "m1"⟩)]).seenMessageIds.length
        ≤ 200
      ∧ ((trimSeen (List.replicate 201 "x")).length = 100
          ∧ List.IsSuffix (trimSeen (List.replicate 201 "x"))
              (List.replicate 201 "x")) :=
  ⟨seen_ids_bounded.1 "me" [(3, ⟨.heartbeat "A" "Alice" "red", some "m1"⟩)],
    seen_ids_bounded.2 (List.replicate 201 "x")
      (by rw [List.length_replicate]; norm_num)⟩
